import Mathlib

/-!
Shallow embedding of the metaroot messaging/dispatch core (cwru-rcci/metaroot):
the `Result` envelope (`metaroot/api/result.py`), the Router's `_safe_call`
fan-out (`metaroot/router.py`), the reflective dispatcher `call_method`
(`metaroot/event/consumer.py` and `metaroot/rpc/server.py`), the RPC server's
`consume_callback` (`metaroot/rpc/server.py`), the Producer's retry loop
(`metaroot/event/producer.py`), the RPC client's bounded reply wait
(`metaroot/rpc/client.py`), the default reactions handler
(`metaroot/api/reactions.py`), and the client facade (`metaroot/api/base_client.py`).
-/

namespace Metaroot

/-- YAML-representable wire values: null, booleans, integers, strings,
ordered lists, and string-keyed mappings (`yaml.safe_load` output). -/
inductive Value where
  | vnull
  | vbool (b : Bool)
  | vint  (n : Int)
  | vstr  (s : String)
  | vlist (xs : List Value)
  | vmap  (m : List (String × Value))

/-- `metaroot.api.result.Result`: a status integer and an arbitrary response. -/
structure Result where
  status : Int
  response : Value

/-- `Result.to_transport_format`: the wire mapping `{"status": .., "response": ..}`. -/
def Result.toTransportFormat (r : Result) : Value :=
  .vmap [("status", .vint r.status), ("response", r.response)]

/-- `Result.is_error`: status different from 0. -/
def Result.isErr (r : Result) : Bool :=
  r.status != 0

/-- First-occurrence lookup in a string-keyed association list
(Python `d[k]` on a dict, which has unique keys). -/
def lookupStr {β : Type} (m : List (String × β)) (k : String) : Option β :=
  match m with
  | [] => none
  | (k', v) :: rest => if k' == k then some v else lookupStr rest k

/-- Python `d[k] = v` on a dict: replace the value at an existing key in
place, otherwise append the new binding at the end (insertion order). -/
def dictInsert {β : Type} (m : List (String × β)) (k : String) (v : β) :
    List (String × β) :=
  match m with
  | [] => [(k, v)]
  | (k', v') :: rest =>
      if k' == k then (k', v) :: rest else (k', v') :: dictInsert rest k v

/-- Python `needle in hay` on lists of characters: contiguous substring test. -/
def listIsSub (needle hay : List Char) : Bool :=
  match hay with
  | [] => needle.isEmpty
  | _ :: t => needle.isPrefixOf hay || listIsSub needle t

/-- Python `needle in hay` on strings: substring test. -/
def strContains (hay needle : String) : Bool :=
  listIsSub needle.toList hay.toList

/-- `Router._safe_call` read-only gate predicate
(`"add" in method_name or "delete" in method_name or "associate" in
method_name or "update" in method_name or "set" in method_name`). -/
def isWriteMethod (methodName : String) : Bool :=
  strContains methodName "add" || strContains methodName "delete" ||
  strContains methodName "associate" || strContains methodName "update" ||
  strContains methodName "set"

/-- The `target_managers` argument of `Router._safe_call`: either the
string `"any"` or a list of manager class names. -/
inductive Targets where
  | tany
  | tlist (names : List String)

/-- A backend manager plug-in: a class name and the methods it defines,
each mapping an ordered argument list to a `Result`. -/
structure Manager where
  className : String
  methods : List (String × (List Value → Result))

/-- `target_managers == "any" or manager.__class__.__name__ in target_managers`. -/
def selectManager (t : Targets) (m : Manager) : Bool :=
  match t with
  | .tany => true
  | .tlist names => names.contains m.className

/-- The Router state relevant to `_safe_call`: the ordered manager list and
the read-only flag. -/
structure RouterState where
  managers : List Manager
  readOnly : Bool

/-- A reactions handler, as called by `_safe_call`:
`occur_in_response_to(class_name, method_name, args, result, n_priors)`. -/
def Reactor : Type :=
  String → String → List Value → Result → Int → Int

/-- Accumulated loop state of the manager iteration in `Router._safe_call`:
the running status sum, the `all_results` response dict, the per-manager
`Result`s obtained so far, the activity-stream records, the manager method
invocations performed, and the `n_priors` reaction counter. -/
structure LoopState where
  status : Int
  allResults : List (String × Value)
  obtained : List (String × Result)
  journal : List (String × List Value × Result)
  calls : List (String × String)
  nPriors : Int

/-- Observable outcome of one `Router._safe_call` invocation: the returned
`Result`, the final `all_results` dict, the per-manager `Result`s obtained,
the activity-stream records written, and the manager methods invoked. -/
structure SafeCallOut where
  result : Result
  allResults : List (String × Value)
  obtained : List (String × Result)
  journal : List (String × List Value × Result)
  calls : List (String × String)

/-- One iteration of the manager loop in `Router._safe_call`: filter by
`target_managers`, look up the method (skip managers that lack it), call it,
sum the status, store the wire-form result under the class name, journal the
call, and let reactions fire. -/
def stepManager (react : Reactor) (methodName : String) (args : List Value)
    (t : Targets) (s : LoopState) (m : Manager) : LoopState :=
  if selectManager t m then
    match lookupStr m.methods methodName with
    | none => s
    | some f =>
        let result := f args
        { status := s.status + result.status
          allResults := dictInsert s.allResults m.className result.toTransportFormat
          obtained := s.obtained ++ [(m.className, result)]
          journal := s.journal ++ [(methodName ++ ":" ++ m.className, args, result)]
          calls := s.calls ++ [(m.className, methodName)]
          nPriors := s.nPriors + react m.className methodName args result s.nPriors }
  else s

/-- The `Result` built by the read-only gate of `_safe_call`. -/
def roResult : Result :=
  ⟨470, .vstr "Read-only operation is enabled, but write operation requested"⟩

/-- Loop state at the top of `_safe_call`: `status = 0`, `all_results = {}`,
`n_priors = 0`, nothing journaled or called yet. -/
def initLoopState : LoopState :=
  { status := 0, allResults := [], obtained := [], journal := [],
    calls := [], nPriors := 0 }

/-- `Router._safe_call(method_name, args, target_managers)`: the read-only
gate, then the ordered fan-out over managers, returning
`Result(status_sum, all_results)`. -/
def safeCall (rt : RouterState) (react : Reactor) (methodName : String)
    (args : List Value) (t : Targets) : SafeCallOut :=
  if rt.readOnly && isWriteMethod methodName then
    { result := roResult
      allResults := []
      obtained := []
      journal := [(methodName ++ ":any", args, roResult)]
      calls := [] }
  else
    let s := rt.managers.foldl (stepManager react methodName args t) initLoopState
    { result := ⟨s.status, .vmap s.allResults⟩
      allResults := s.allResults
      obtained := s.obtained
      journal := s.journal
      calls := s.calls }

/-! Dispatcher (`Consumer.call_method` in `metaroot/event/consumer.py` and the
identical `RPCServer.call_method` in `metaroot/rpc/server.py`). Python-level
errors that the source does not catch (a `TypeError` from `in`, subscripting,
or `getattr` with a non-string name) are modelled as `Except.error ()`. -/

/-- Python `v == "action-string"`: true only when `v` is that very string. -/
def valueEqStr (v : Value) (k : String) : Bool :=
  match v with
  | .vstr s => s == k
  | _ => false

/-- Python `k in container` for a decoded YAML value: key membership on a
mapping, substring test on a string, element membership on a list; a
`TypeError` on any other value (null, booleans, numbers). -/
def pyContains (container : Value) (k : String) : Except Unit Bool :=
  match container with
  | .vmap m => .ok (m.any (fun p => p.1 == k))
  | .vstr s => .ok (strContains s k)
  | .vlist xs => .ok (xs.any (fun v => valueEqStr v k))
  | _ => .error ()

/-- Python `container[k]` with a string subscript: value lookup on a mapping
(`KeyError` when absent), a `TypeError` on every other value. -/
def pySubscript (container : Value) (k : String) : Except Unit Value :=
  match container with
  | .vmap m =>
      match lookupStr m k with
      | some v => .ok v
      | none => .error ()
  | _ => .error ()

/-- A handler method: its declared parameter names in order (excluding the
implicit receiver, as `inspect.signature` reports them for a bound method)
and its behavior, which may raise. -/
structure HMethod where
  params : List String
  impl : List Value → Except Unit Result

/-- A handler object: its methods by name (`getattr` succeeds exactly on
these names). -/
structure Handler where
  methods : List (String × HMethod)

/-- Argument-collection loop of `call_method`: for each declared parameter in
order, require a same-named key in the message and collect its value;
`none` models the early `return 452` at the first missing parameter. -/
def gatherArgs (message : Value) : List String → Except Unit (Option (List Value))
  | [] => .ok (some [])
  | p :: rest => do
      let mem ← pyContains message p
      if mem then do
        let v ← pySubscript message p
        let r ← gatherArgs message rest
        .ok (r.map (v :: ·))
      else
        .ok none

/-- `call_method(obj, message)` of `Consumer`/`RPCServer`: 450 when `action`
is absent, 451 when the handler lacks the named method (`AttributeError`
from `getattr`), 452 at the first missing declared parameter, 455 when the
call raises; otherwise the method's `Result` in wire fields. `getattr` with
a non-string attribute name raises a `TypeError` that the source does not
catch. -/
def callMethod (h : Handler) (message : Value) : Except Unit Result := do
  let hasAct ← pyContains message "action"
  if hasAct then do
    let actVal ← pySubscript message "action"
    match actVal with
    | .vstr aname =>
        match lookupStr h.methods aname with
        | none => .ok ⟨451, .vnull⟩
        | some meth => do
            let args? ← gatherArgs message meth.params
            match args? with
            | none => .ok ⟨452, .vnull⟩
            | some args =>
                match meth.impl args with
                | .ok r => .ok r
                | .error _ => .ok ⟨455, .vnull⟩
    | _ => .error ()
  else
    .ok ⟨450, .vnull⟩

/-! RPC server `consume_callback` (`metaroot/rpc/server.py`). -/

/-- Result of `yaml.safe_load` on a message body: a decoded value, or a
`yaml.YAMLError`. -/
inductive ParsedBody where
  | parseFail
  | ok (v : Value)

/-- AMQP message properties used by the RPC server: `reply_to` and
`correlation_id`. -/
structure Props where
  replyTo : String
  corrId : String

/-- Observable broker operations issued by `consume_callback`, in order:
`basic_publish` (routing key, correlation id, body before serialization)
and `basic_ack`. -/
inductive BrokerOp where
  | publish (routingKey : String) (corrId : String) (body : Value)
  | ack

/-- Python `message == "CLOSE_IMMEDIATELY"` on the decoded value (`message`
is `None` after a parse failure). -/
def isCloseMsg (message : Option Value) : Bool :=
  match message with
  | some (.vstr s) => s == "CLOSE_IMMEDIATELY"
  | _ => false

/-- `RPCServer.consume_callback(ch, method, props, body)`: decode the body
(450 envelope on a parse failure), answer `CLOSE_IMMEDIATELY` with
`{0, "SHUTDOWN_INIT"}` and stop consuming, otherwise dispatch through
`call_method`; publish the result to `props.reply_to` with
`props.correlation_id` and then acknowledge. Output: the ordered broker
operations, the returned status, and the exit flag. Exceptions that escape
`call_method` escape the callback (no publish, no ack). -/
def consumeCallback (h : Handler) (props : Props) (body : ParsedBody) :
    Except Unit (List BrokerOp × Int × Bool) :=
  let init : Result × Option Value :=
    match body with
    | .parseFail => (⟨450, .vnull⟩, none)
    | .ok v => (⟨0, .vnull⟩, some v)
  let result0 := init.1
  let message := init.2
  if isCloseMsg message then
    .ok ([.publish props.replyTo props.corrId
            (Result.toTransportFormat ⟨0, .vstr "SHUTDOWN_INIT"⟩),
          .ack], 0, true)
  else do
    let result ←
      if result0.status == 0 then
        match message with
        | some v => callMethod h v
        | none => .ok result0
      else
        .ok result0
    .ok ([.publish props.replyTo props.corrId result.toTransportFormat,
          .ack], result.status, false)

/-! Producer send/retry loop (`metaroot/event/producer.py`). -/

/-- Observable effects of `Producer.send`'s delivery loop, in order: a
`basic_publish` attempt (numbered), a `time.sleep` (seconds), a reconnect. -/
inductive ProdEv where
  | pub (attempt : Nat)
  | sleep (secs : Nat)
  | reconn

/-- Publish-attempt numbers appearing in a producer trace, in order. -/
def pubsOf (tr : List ProdEv) : List Nat :=
  tr.filterMap (fun e => match e with | .pub n => some n | _ => none)

/-- Sleep durations appearing in a producer trace, in order. -/
def sleepsOf (tr : List ProdEv) : List Nat :=
  tr.filterMap (fun e => match e with | .sleep s => some s | _ => none)

/-- Delivery loop of `Producer.send`: `attempts = 1`, then
`while not_sent and attempts < 10`, publishing, and on failure sleeping
`(attempts - 1) * 5` seconds and reconnecting when the connection is closed.
`publishOk a` tells whether the publish on attempt `a` succeeds; `closed a`
whether the connection is observed closed after a failed attempt `a`. The
fuel (10) exceeds the guard's bound, so the guard alone stops the loop. -/
def producerLoop (publishOk closed : Nat → Bool) :
    Nat → Bool → Nat → List ProdEv → Bool × List ProdEv
  | 0, notSent, _, tr => (notSent, tr)
  | fuel + 1, notSent, attempts, tr =>
      if notSent && attempts < 10 then
        if publishOk attempts then
          producerLoop publishOk closed fuel false (attempts + 1) (tr ++ [.pub attempts])
        else
          let tr' := tr ++ [.pub attempts, .sleep ((attempts - 1) * 5)] ++
            (if closed attempts then [.reconn] else [])
          producerLoop publishOk closed fuel true (attempts + 1) tr'
      else (notSent, tr)

/-- `Producer.send(obj)`: serialization failure returns 453 with no publish
attempt; otherwise run the delivery loop, returning 470 with a human message
when the message was never sent and `{0, null}` on success. -/
def producerSend (serializeOk : Bool) (publishOk closed : Nat → Bool) :
    Result × List ProdEv :=
  if !serializeOk then
    (⟨453, .vstr "Could not serialize the message as YAML"⟩, [])
  else
    let (notSent, tr) := producerLoop publishOk closed 10 true 1 []
    if notSent then (⟨470, .vstr "Message could not be delivered"⟩, tr)
    else (⟨0, .vnull⟩, tr)

/-! RPC client reply wait (`metaroot/rpc/client.py`). -/

/-- `RPCClient.on_response(ch, method, props, body)` applied to one delivered
reply event `(correlation_id, body)`: store the body when the correlation id
matches the pending one, otherwise leave the stored response unchanged. -/
def onResp (corrId : String) (resp : Option ParsedBody)
    (ev : String × ParsedBody) : Option ParsedBody :=
  if corrId == ev.1 then some ev.2 else resp

/-- One `process_data_events(time_limit=5)` slice: deliver the slice's reply
events to `on_response` in order. -/
def processSlice (corrId : String) (events : List (String × ParsedBody))
    (resp : Option ParsedBody) : Option ParsedBody :=
  events.foldl (onResp corrId) resp

/-- Reply-wait loop of `RPCClient.send`: `attempts = 1`, then
`while self.response is None and attempts < 36`, each iteration processing
one 5-second slice of events (`slices a` arrives during the poll made with
counter value `a`). Returns the stored response and the final counter. The
fuel (36) exceeds the guard's bound, so the guard alone stops the loop. -/
def waitLoop (corrId : String) (slices : Nat → List (String × ParsedBody)) :
    Nat → Option ParsedBody → Nat → Option ParsedBody × Nat
  | 0, resp, attempts => (resp, attempts)
  | fuel + 1, resp, attempts =>
      if resp.isNone && attempts < 36 then
        waitLoop corrId slices fuel (processSlice corrId (slices attempts) resp)
          (attempts + 1)
      else (resp, attempts)

/-- `Result.from_transport_format(obj)` on a decoded reply value:
`Result(obj["status"], obj["response"])`; a missing key raises (`KeyError`),
as does subscripting a non-mapping, and a non-integer status is outside the
wire contract of §3. -/
def fromTransportFormat (v : Value) : Except Unit Result :=
  match v with
  | .vmap m =>
      match lookupStr m "status", lookupStr m "response" with
      | some (.vint s), some r => .ok ⟨s, r⟩
      | _, _ => .error ()
  | _ => .error ()

/-- Decoding of the stored reply by `RPCClient.send` when the wait did not
time out: `yaml.safe_load` failure yields `Result(454, None)`, otherwise
`Result.from_transport_format` of the decoded value. The stored response
cannot be empty when the counter is below 36, so the `none` branch is
unreachable. -/
def decodeStored : Option ParsedBody → Except Unit Result
  | some (.ok v) => fromTransportFormat v
  | some .parseFail => .ok ⟨454, .vnull⟩
  | none => .ok ⟨454, .vnull⟩

/-- Tail of `RPCClient.send` after a successful publish: run the reply-wait
loop from a fresh response slot and counter 1; when the final counter equals
36 return the 471 timeout result; otherwise decode the stored reply body. -/
def sendAfterPublish (corrId : String)
    (slices : Nat → List (String × ParsedBody)) : Except Unit Result :=
  let (resp, att) := waitLoop corrId slices 36 none 1
  if att == 36 then
    .ok ⟨471, .vstr "Operation timed out waiting for a response"⟩
  else
    decodeStored resp

/-- Timeout test of `RPCClient.send`: the branch `if attempts == 36` taken
after the reply-wait loop. -/
def rpcTimedOut (corrId : String)
    (slices : Nat → List (String × ParsedBody)) : Bool :=
  (waitLoop corrId slices 36 none 1).2 == 36

/-- Presence of a reply event matching the pending correlation id in one
slice. -/
def sliceHasMatch (corrId : String) (events : List (String × ParsedBody)) : Bool :=
  events.any (fun ev => corrId == ev.1)

/-! Default reactions handler (`metaroot/api/reactions.py`). -/

/-- One `send_email` notification fired by `DefaultReactions`: the manager
class name and the action it reported on. -/
structure Notification where
  clazz : String
  action : String

/-- `DefaultReactions.occur_in_response_to(clazz, action, payload, result,
n_priors)`: send one notification email when `result.is_error()`, none
otherwise; the function body ends in `return 0` on every path. Output: the
notifications fired and the returned integer. -/
def occurInResponseTo (clazz action : String) (payload : List Value)
    (result : Result) (nPriors : Int) : List Notification × Int :=
  if result.isErr then ([⟨clazz, action⟩], 0) else ([], 0)

/-! Client facade (`metaroot/api/base_client.py`). -/

/-- Outcome of one facade method call: the requests handed to the underlying
transport's `send` (in order), and either the transport's `Result` or the
message of a raised exception. -/
structure FacadeOut where
  sent : List Value
  outcome : Except String Result

/-- `BaseClient.add_group(group_atts, managers="any")`: raise unless
`group_atts` has a key `"name"`, otherwise send
`{action: "add_group", group_atts, managers}`. -/
def addGroup (send : Value → Result) (groupAtts : List (String × Value))
    (managers : Value := .vstr "any") : FacadeOut :=
  if !(groupAtts.any (fun p => p.1 == "name")) then
    ⟨[], .error "group_atts must contain a key 'name'"⟩
  else
    let request := Value.vmap [("action", .vstr "add_group"),
      ("group_atts", .vmap groupAtts), ("managers", managers)]
    ⟨[request], .ok (send request)⟩

/-- `BaseClient.add_user(user_atts, managers="any")`: raise unless
`user_atts` has a key `"name"` (the raised message names `group_atts`,
copied verbatim from the source), otherwise send
`{action: "add_user", user_atts, managers}`. -/
def addUser (send : Value → Result) (userAtts : List (String × Value))
    (managers : Value := .vstr "any") : FacadeOut :=
  if !(userAtts.any (fun p => p.1 == "name")) then
    ⟨[], .error "group_atts must contain a key 'name'"⟩
  else
    let request := Value.vmap [("action", .vstr "add_user"),
      ("user_atts", .vmap userAtts), ("managers", managers)]
    ⟨[request], .ok (send request)⟩

/-- `BaseClient.update_group(group_atts, managers="any")`: build and send
`{action: "update_group", group_atts, managers}`; the source performs no
check on `group_atts`. -/
def updateGroup (send : Value → Result) (groupAtts : List (String × Value))
    (managers : Value := .vstr "any") : FacadeOut :=
  let request := Value.vmap [("action", .vstr "update_group"),
    ("group_atts", .vmap groupAtts), ("managers", managers)]
  ⟨[request], .ok (send request)⟩

/-- `BaseClient.update_user(user_atts, managers="any")`: build and send
`{action: "update_user", user_atts, managers}`; the source performs no
check on `user_atts`. -/
def updateUser (send : Value → Result) (userAtts : List (String × Value))
    (managers : Value := .vstr "any") : FacadeOut :=
  let request := Value.vmap [("action", .vstr "update_user"),
    ("user_atts", .vmap userAtts), ("managers", managers)]
  ⟨[request], .ok (send request)⟩

/-! Derived vocabulary used by the theorems below. -/

/-- A manager qualifies for a `_safe_call` fan-out when it passes the
`target_managers` filter and defines the requested method. -/
def qualifies (methodName : String) (t : Targets) (m : Manager) : Bool :=
  selectManager t m && (lookupStr m.methods methodName).isSome

/-- The class-name/`Result` pairs the `_safe_call` loop obtains, computed
directly from the manager list: one pair per qualifying manager, in
configured order. -/
def qualifiedResults (methodName : String) (args : List Value) (t : Targets)
    (ms : List Manager) : List (String × Result) :=
  ms.filterMap (fun m =>
    if selectManager t m then
      (lookupStr m.methods methodName).map (fun f => (m.className, f args))
    else none)

/-- Events produced by one failed publish attempt `a` of `Producer.send`:
the attempt itself, the `(a - 1) * 5`-second sleep, and a reconnect when
the connection was observed closed. -/
def prodFailEvs (closed : Nat → Bool) (a : Nat) : List ProdEv :=
  [ProdEv.pub a, ProdEv.sleep ((a - 1) * 5)]
    ++ (if closed a then [ProdEv.reconn] else [])

/-! Concrete fixtures used to instantiate the theorems at explicit inputs. -/

/-- A reply trace delivering a matching, well-formed reply during the 35th
(final) poll slice and nothing earlier. -/
def slices35 : Nat → List (String × ParsedBody) := fun t =>
  if t == 35 then
    [("cid", .ok (Value.vmap [("status", .vint 0), ("response", .vnull)]))]
  else []

/-- A reply trace delivering a matching, well-formed reply during the 2nd
poll slice and nothing else. -/
def slices2 : Nat → List (String × ParsedBody) := fun t =>
  if t == 2 then
    [("cid", .ok (Value.vmap [("status", .vint 7), ("response", .vstr "r")]))]
  else []

/-- A handler method `echo(message)` returning `Result(0, null)`. -/
def methEcho : HMethod := ⟨["message"], fun _ => .ok ⟨0, .vnull⟩⟩

/-- A handler exposing only the method `echo`. -/
def hEcho : Handler := ⟨[("echo", methEcho)]⟩

/-- A reactions handler that fires nothing. -/
def nullReact : Reactor := fun _ _ _ _ _ => 0

/-- A manager whose `add_group` succeeds with status 0. -/
def mgrA : Manager := ⟨"ManA", [("add_group", fun _ => ⟨0, .vstr "ok"⟩)]⟩

/-- A manager whose `add_group` fails with status 3. -/
def mgrB : Manager := ⟨"ManB", [("add_group", fun _ => ⟨3, .vnull⟩)]⟩

/-- A Router with managers `ManA`, `ManB` and the read-only flag clear. -/
def rtAB : RouterState := ⟨[mgrA, mgrB], false⟩

/-! Generic lemmas about lookup and insertion in string-keyed association
lists. -/

theorem lookupStr_append {β : Type} (xs ys : List (String × β)) (k : String) :
    lookupStr (xs ++ ys) k
      = match lookupStr xs k with
        | some v => some v
        | none => lookupStr ys k := by
  induction xs with
  | nil => simp [lookupStr]
  | cons p rest ih =>
      obtain ⟨k', v'⟩ := p
      cases hk : k' == k with
      | true => simp [lookupStr, hk]
      | false => simp [lookupStr, hk, ih]

theorem dictInsert_of_lookup_none {β : Type} (m : List (String × β))
    (k : String) (v : β) (h : lookupStr m k = none) :
    dictInsert m k v = m ++ [(k, v)] := by
  induction m with
  | nil => rfl
  | cons p rest ih =>
      obtain ⟨k', v'⟩ := p
      cases hk : k' == k with
      | true => simp [lookupStr, hk] at h
      | false =>
          simp only [lookupStr, hk, if_neg] at h
          simp [dictInsert, hk, ih h]

theorem lookupStr_isSome_eq_any {β : Type} (m : List (String × β)) (k : String) :
    (lookupStr m k).isSome = m.any (fun p => p.1 == k) := by
  induction m with
  | nil => simp [lookupStr]
  | cons p rest ih =>
      obtain ⟨k', v'⟩ := p
      cases hk : k' == k with
      | true => simp [lookupStr, hk]
      | false => simp [lookupStr, hk, ih]

/-! Lemmas about the manager loop of `Router._safe_call`. -/

theorem stepManager_of_not_qualifies (react : Reactor) (methodName : String)
    (args : List Value) (t : Targets) (s : LoopState) (m : Manager)
    (h : qualifies methodName t m = false) :
    stepManager react methodName args t s m = s := by
  unfold qualifies at h
  unfold stepManager
  cases hsel : selectManager t m with
  | false => simp
  | true =>
      simp only [hsel, Bool.true_and] at h
      cases hlk : lookupStr m.methods methodName with
      | none => simp
      | some f => simp [hlk] at h

theorem foldl_step_skip (react : Reactor) (methodName : String)
    (args : List Value) (t : Targets) :
    ∀ (ms : List Manager) (s : LoopState),
      (∀ m ∈ ms, qualifies methodName t m = false) →
      ms.foldl (stepManager react methodName args t) s = s := by
  intro ms
  induction ms with
  | nil => intro s _; rfl
  | cons m rest ih =>
      intro s hall
      rw [List.foldl_cons,
        stepManager_of_not_qualifies react methodName args t s m
          (hall m (by simp))]
      exact ih s (fun m' hm' => hall m' (by simp [hm']))

theorem stepManager_status (react : Reactor) (methodName : String)
    (args : List Value) (t : Targets) (s : LoopState) (m : Manager)
    (hs : s.status = (s.obtained.map (fun p => p.2.status)).sum) :
    (stepManager react methodName args t s m).status
      = ((stepManager react methodName args t s m).obtained.map
          (fun p => p.2.status)).sum := by
  unfold stepManager
  cases hsel : selectManager t m with
  | false => simpa using hs
  | true =>
      cases hlk : lookupStr m.methods methodName with
      | none => simpa using hs
      | some f => simp [hs]

theorem foldl_status (react : Reactor) (methodName : String)
    (args : List Value) (t : Targets) :
    ∀ (ms : List Manager) (s : LoopState),
      s.status = (s.obtained.map (fun p => p.2.status)).sum →
      (ms.foldl (stepManager react methodName args t) s).status
        = ((ms.foldl (stepManager react methodName args t) s).obtained.map
            (fun p => p.2.status)).sum := by
  intro ms
  induction ms with
  | nil => intro s hs; exact hs
  | cons m rest ih =>
      intro s hs
      rw [List.foldl_cons]
      exact ih _ (stepManager_status react methodName args t s m hs)

theorem foldl_char (react : Reactor) (methodName : String) (args : List Value)
    (t : Targets) :
    ∀ (ms : List Manager) (s : LoopState),
      (∀ m ∈ ms, lookupStr s.allResults m.className = none) →
      (ms.map Manager.className).Nodup →
      (ms.foldl (stepManager react methodName args t) s).allResults
          = s.allResults
            ++ (qualifiedResults methodName args t ms).map
                (fun p => (p.1, p.2.toTransportFormat))
        ∧ (ms.foldl (stepManager react methodName args t) s).obtained
          = s.obtained ++ qualifiedResults methodName args t ms := by
  intro ms
  induction ms with
  | nil => intro s _ _; simp [qualifiedResults]
  | cons m rest ih =>
      intro s hdisj hnd
      rw [List.map_cons, List.nodup_cons] at hnd
      obtain ⟨hhead, hndrest⟩ := hnd
      rw [List.foldl_cons]
      cases hsel : selectManager t m with
      | false =>
          have hstep : stepManager react methodName args t s m = s := by
            unfold stepManager; simp [hsel]
          rw [hstep]
          have hq : qualifiedResults methodName args t (m :: rest)
              = qualifiedResults methodName args t rest := by
            simp [qualifiedResults, List.filterMap_cons, hsel]
          rw [hq]
          exact ih s (fun m' hm' => hdisj m' (by simp [hm'])) hndrest
      | true =>
          cases hlk : lookupStr m.methods methodName with
          | none =>
              have hstep : stepManager react methodName args t s m = s := by
                unfold stepManager; simp [hsel, hlk]
              rw [hstep]
              have hq : qualifiedResults methodName args t (m :: rest)
                  = qualifiedResults methodName args t rest := by
                simp [qualifiedResults, List.filterMap_cons, hsel, hlk]
              rw [hq]
              exact ih s (fun m' hm' => hdisj m' (by simp [hm'])) hndrest
          | some f =>
              have hlkn := hdisj m (by simp)
              have hA : (stepManager react methodName args t s m).allResults
                  = s.allResults ++ [(m.className, (f args).toTransportFormat)] := by
                unfold stepManager
                simp [hsel, hlk, dictInsert_of_lookup_none _ _ _ hlkn]
              have hO : (stepManager react methodName args t s m).obtained
                  = s.obtained ++ [(m.className, f args)] := by
                unfold stepManager
                simp [hsel, hlk]
              have hdisj' : ∀ m' ∈ rest,
                  lookupStr (stepManager react methodName args t s m).allResults
                    m'.className = none := by
                intro m' hm'
                rw [hA, lookupStr_append, hdisj m' (by simp [hm'])]
                have hne : m.className ≠ m'.className := by
                  intro he
                  have hmem : m.className ∈ rest.map Manager.className := by
                    rw [he]
                    exact List.mem_map_of_mem Manager.className hm'
                  exact hhead hmem
                simp [lookupStr, hne]
              obtain ⟨ha, hb⟩ :=
                ih (stepManager react methodName args t s m) hdisj' hndrest
              rw [ha, hb, hA, hO]
              have hq : qualifiedResults methodName args t (m :: rest)
                  = (m.className, f args) :: qualifiedResults methodName args t rest := by
                simp [qualifiedResults, List.filterMap_cons, hsel, hlk]
              rw [hq]
              constructor
              · simp
              · simp

theorem qualifiedResults_keys (methodName : String) (args : List Value)
    (t : Targets) (ms : List Manager) :
    (qualifiedResults methodName args t ms).map Prod.fst
      = (ms.filter (qualifies methodName t)).map Manager.className := by
  induction ms with
  | nil => rfl
  | cons m rest ih =>
      cases hsel : selectManager t m with
      | false =>
          simp [qualifiedResults, List.filterMap_cons, hsel, List.filter_cons,
            qualifies, qualifiedResults] at ih ⊢
          exact ih
      | true =>
          cases hlk : lookupStr m.methods methodName with
          | none =>
              simp [qualifiedResults, List.filterMap_cons, hsel, hlk,
                List.filter_cons, qualifies] at ih ⊢
              exact ih
          | some f =>
              simp [qualifiedResults, List.filterMap_cons, hsel, hlk,
                List.filter_cons, qualifies] at ih ⊢
              exact ih

theorem lookupStr_wire (l : List (String × Result))
    (hnd : (l.map Prod.fst).Nodup) :
    ∀ c r, (c, r) ∈ l →
      lookupStr (l.map (fun p => (p.1, p.2.toTransportFormat))) c
        = some r.toTransportFormat := by
  induction l with
  | nil => intro c r h; simp at h
  | cons p rest ih =>
      obtain ⟨c', r'⟩ := p
      rw [List.map_cons, List.nodup_cons] at hnd
      obtain ⟨hhead, hndrest⟩ := hnd
      intro c r h
      rcases List.mem_cons.mp h with heq | hmem
      · injection heq with h1 h2
        subst h1; subst h2
        simp [lookupStr]
      · have hne : c' ≠ c := by
          intro he
          have hmem' : c' ∈ rest.map Prod.fst := by
            rw [he]
            exact List.mem_map_of_mem Prod.fst hmem
          exact hhead hmem'
        simp only [List.map_cons, lookupStr]
        rw [if_neg (by simpa using hne)]
        exact ih hndrest c r hmem

/-! Claim theorems for the Router. -/

/-- **C3** (confirmed). When the Router's read-only flag is set and the
requested method name contains any of the substrings `add`, `delete`,
`associate`, `update`, `set`, `_safe_call` returns
`Result(470, "Read-only operation is enabled, but write operation
requested")`, records exactly that result in the activity journal under the
id `method_name + ":any"`, and invokes no method of any manager. -/
theorem safeCall_read_only_gate (rt : RouterState) (react : Reactor)
    (methodName : String) (args : List Value) (t : Targets)
    (hro : rt.readOnly = true)
    (hw : (strContains methodName "add" || strContains methodName "delete" ||
           strContains methodName "associate" || strContains methodName "update" ||
           strContains methodName "set") = true) :
    (safeCall rt react methodName args t).result
        = ⟨470, .vstr "Read-only operation is enabled, but write operation requested"⟩
      ∧ (safeCall rt react methodName args t).journal
        = [(methodName ++ ":any", args,
            ⟨470, .vstr "Read-only operation is enabled, but write operation requested"⟩)]
      ∧ (safeCall rt react methodName args t).calls = [] := by
  have hgate : (rt.readOnly && isWriteMethod methodName) = true := by
    rw [hro, isWriteMethod]
    simpa using hw
  unfold safeCall
  rw [hgate]
  exact ⟨rfl, rfl, rfl⟩

/-- Witness for C3: a concrete read-only Router refuses `add_group` without
calling its manager. -/
theorem safeCall_read_only_gate_witness :
    (safeCall ⟨[⟨"ManA", [("add_group", fun _ => ⟨0, .vnull⟩)]⟩], true⟩
        (fun _ _ _ _ _ => 0) "add_group" [.vstr "g"] .tany).result
        = ⟨470, .vstr "Read-only operation is enabled, but write operation requested"⟩
      ∧ (safeCall ⟨[⟨"ManA", [("add_group", fun _ => ⟨0, .vnull⟩)]⟩], true⟩
          (fun _ _ _ _ _ => 0) "add_group" [.vstr "g"] .tany).journal
        = [("add_group" ++ ":any", [.vstr "g"],
            ⟨470, .vstr "Read-only operation is enabled, but write operation requested"⟩)]
      ∧ (safeCall ⟨[⟨"ManA", [("add_group", fun _ => ⟨0, .vnull⟩)]⟩], true⟩
          (fun _ _ _ _ _ => 0) "add_group" [.vstr "g"] .tany).calls = [] :=
  safeCall_read_only_gate _ _ _ _ _ rfl (by decide)

/-- **C10** (confirmed). When the read-only gate is not triggered and no
configured manager both passes the `target_managers` filter and defines the
requested method, `_safe_call` returns a success `Result` with status 0 and
an empty response mapping. -/
theorem safeCall_empty_fanout (rt : RouterState) (react : Reactor)
    (methodName : String) (args : List Value) (t : Targets)
    (hgate : (rt.readOnly && isWriteMethod methodName) = false)
    (hnone : rt.managers.all (fun m => !(qualifies methodName t m)) = true) :
    (safeCall rt react methodName args t).result = ⟨0, .vmap []⟩ := by
  unfold safeCall
  rw [hgate]
  simp only [Bool.false_eq_true, if_false]
  rw [foldl_step_skip react methodName args t rt.managers _
    (fun m hm => by simpa using List.all_eq_true.mp hnone m hm)]
  rfl

/-- Witness for C10: a target list naming no configured manager yields
`Result(0, {})`. -/
theorem safeCall_empty_fanout_witness :
    (safeCall ⟨[⟨"ManA", [("get_group", fun _ => ⟨7, .vnull⟩)]⟩], false⟩
        (fun _ _ _ _ _ => 0) "get_group" [.vstr "g"] (.tlist ["Nobody"])).result
      = ⟨0, .vmap []⟩ :=
  safeCall_empty_fanout _ _ _ _ _ (by decide) (by decide)

theorem safeCall_not_gated (rt : RouterState) (react : Reactor)
    (methodName : String) (args : List Value) (t : Targets)
    (hgate : (rt.readOnly && isWriteMethod methodName) = false) :
    safeCall rt react methodName args t
      = { result :=
            ⟨(rt.managers.foldl (stepManager react methodName args t)
                initLoopState).status,
             .vmap (rt.managers.foldl (stepManager react methodName args t)
                initLoopState).allResults⟩
          allResults := (rt.managers.foldl (stepManager react methodName args t)
            initLoopState).allResults
          obtained := (rt.managers.foldl (stepManager react methodName args t)
            initLoopState).obtained
          journal := (rt.managers.foldl (stepManager react methodName args t)
            initLoopState).journal
          calls := (rt.managers.foldl (stepManager react methodName args t)
            initLoopState).calls } := by
  unfold safeCall
  rw [if_neg (by simp [hgate])]

theorem map_wire_fst (l : List (String × Result)) :
    (l.map (fun p => (p.1, p.2.toTransportFormat))).map Prod.fst
      = l.map Prod.fst := by
  induction l with
  | nil => rfl
  | cons p rest ih => simp [ih]

theorem safeCall_char (rt : RouterState) (react : Reactor)
    (methodName : String) (args : List Value) (t : Targets)
    (hgate : (rt.readOnly && isWriteMethod methodName) = false)
    (hnd : (rt.managers.map Manager.className).Nodup) :
    (safeCall rt react methodName args t).allResults
        = (qualifiedResults methodName args t rt.managers).map
            (fun p => (p.1, p.2.toTransportFormat))
      ∧ (safeCall rt react methodName args t).obtained
        = qualifiedResults methodName args t rt.managers := by
  rw [safeCall_not_gated rt react methodName args t hgate]
  obtain ⟨hA, hO⟩ := foldl_char react methodName args t rt.managers
    initLoopState (fun m _ => rfl) hnd
  constructor
  · rw [hA]; rfl
  · rw [hO]; rfl

/-- **C1** (corrected). For every `_safe_call` invocation not blocked by the
read-only gate, the status of the returned `Result` equals the arithmetic
sum of the statuses of the per-manager `Result`s obtained from the managers
invoked during the call, the returned response is the accumulated
`all_results` mapping, and — the configured class names being pairwise
distinct — each obtained `Result` is stored in wire form in that mapping
under its manager's class name. The read-only gate branch falsifies the
claim over unrestricted calls (see the counterexample). -/
theorem safeCall_status_sum (rt : RouterState) (react : Reactor)
    (methodName : String) (args : List Value) (t : Targets)
    (hgate : (rt.readOnly && isWriteMethod methodName) = false) :
    (safeCall rt react methodName args t).result.status
        = ((safeCall rt react methodName args t).obtained.map
            (fun p => p.2.status)).sum
      ∧ (safeCall rt react methodName args t).result.response
        = .vmap (safeCall rt react methodName args t).allResults
      ∧ ((rt.managers.map Manager.className).Nodup →
          ∀ p ∈ (safeCall rt react methodName args t).obtained,
            lookupStr (safeCall rt react methodName args t).allResults p.1
              = some p.2.toTransportFormat) := by
  refine ⟨?_, ?_, ?_⟩
  · rw [safeCall_not_gated rt react methodName args t hgate]
    exact foldl_status react methodName args t rt.managers initLoopState rfl
  · rw [safeCall_not_gated rt react methodName args t hgate]
  · intro hnd p hp
    obtain ⟨hA, hO⟩ := safeCall_char rt react methodName args t hgate hnd
    rw [hO] at hp
    rw [hA]
    obtain ⟨c, r⟩ := p
    exact lookupStr_wire _
      (by rw [qualifiedResults_keys]
          exact ((List.filter_sublist _).map Manager.className).nodup hnd)
      c r hp

/-- Counterexample to C1 as stated: a read-only `_safe_call` on `add_group`
returns status 470 although no manager was invoked, so the status differs
from the (empty) sum of obtained per-manager statuses. -/
theorem safeCall_gate_status_not_sum :
    (safeCall ⟨[], true⟩ nullReact "add_group" [] .tany).result.status = 470
    ∧ (safeCall ⟨[], true⟩ nullReact "add_group" [] .tany).obtained = []
    ∧ ¬ ((safeCall ⟨[], true⟩ nullReact "add_group" [] .tany).result.status
          = ((safeCall ⟨[], true⟩ nullReact "add_group" [] .tany).obtained.map
              (fun p => p.2.status)).sum) :=
  ⟨rfl, rfl, by decide⟩

/-- Witness for C1: the amended statement at a Router with two managers
returning statuses 0 and 3 on `add_group`. -/
theorem safeCall_status_sum_witness :
    (safeCall rtAB nullReact "add_group" [.vstr "g"] .tany).result.status
        = ((safeCall rtAB nullReact "add_group" [.vstr "g"] .tany).obtained.map
            (fun p => p.2.status)).sum
      ∧ (safeCall rtAB nullReact "add_group" [.vstr "g"] .tany).result.response
        = .vmap (safeCall rtAB nullReact "add_group" [.vstr "g"] .tany).allResults
      ∧ ((rtAB.managers.map Manager.className).Nodup →
          ∀ p ∈ (safeCall rtAB nullReact "add_group" [.vstr "g"] .tany).obtained,
            lookupStr (safeCall rtAB nullReact "add_group" [.vstr "g"] .tany).allResults p.1
              = some p.2.toTransportFormat) :=
  safeCall_status_sum rtAB nullReact "add_group" [.vstr "g"] .tany (by decide)

/-- **C6** (confirmed). For every `_safe_call` invocation not blocked by the
read-only gate, with pairwise-distinct manager class names, the returned
response mapping has exactly one entry per configured manager that passes
the `target_managers` filter and defines the requested method, keyed by that
manager's class name, in configured order, and no other keys. -/
theorem safeCall_response_keys (rt : RouterState) (react : Reactor)
    (methodName : String) (args : List Value) (t : Targets)
    (hgate : (rt.readOnly && isWriteMethod methodName) = false)
    (hnd : (rt.managers.map Manager.className).Nodup) :
    (safeCall rt react methodName args t).result.response
        = .vmap (safeCall rt react methodName args t).allResults
      ∧ (safeCall rt react methodName args t).allResults.map Prod.fst
        = (rt.managers.filter (qualifies methodName t)).map Manager.className := by
  constructor
  · rw [safeCall_not_gated rt react methodName args t hgate]
  · obtain ⟨hA, _⟩ := safeCall_char rt react methodName args t hgate hnd
    rw [hA, map_wire_fst]
    exact qualifiedResults_keys methodName args t rt.managers

/-- Witness for C6: with managers `ManA` (defines `add_group`) and `ManB`
targeted by class name, only `ManA` appears in the response mapping when
the target list is `["ManA"]`. -/
theorem safeCall_response_keys_witness :
    (safeCall rtAB nullReact "add_group" [.vstr "g"] (.tlist ["ManA"])).result.response
        = .vmap (safeCall rtAB nullReact "add_group" [.vstr "g"] (.tlist ["ManA"])).allResults
      ∧ (safeCall rtAB nullReact "add_group" [.vstr "g"] (.tlist ["ManA"])).allResults.map Prod.fst
        = (rtAB.managers.filter (qualifies "add_group" (.tlist ["ManA"]))).map Manager.className :=
  safeCall_response_keys rtAB nullReact "add_group" [.vstr "g"] (.tlist ["ManA"])
    (by decide) (by decide)

/-! Claim theorem for the default reactions handler. -/

/-- **C9** (code bug). `DefaultReactions.occur_in_response_to` fires exactly
one notification when `result.is_error()` holds and none otherwise, but its
integer return value is 0 on every path: the function body ends in an
unconditional `return 0`, so a fired notification is never reported back,
contradicting the documented `n_priors` protocol ("it increases by one each
time a Result from a manager operation triggers a reaction"). -/
theorem occur_fires_but_returns_zero (clazz act : String)
    (payload : List Value) (result : Result) (nPriors : Int) :
    (occurInResponseTo clazz act payload result nPriors).2 = 0
    ∧ (occurInResponseTo clazz act payload result nPriors).1.length
      = (if result.isErr then 1 else 0) := by
  unfold occurInResponseTo
  cases h : result.isErr <;> simp [h]

/-! Claim theorems for the client facade. -/

/-- **C8** (corrected). Among the facade methods taking a `group_atts` or
`user_atts` mapping, only `add_group` and `add_user` enforce the `name`-key
precondition — raising without sending anything when the key is absent —
while `update_group` and `update_user` perform no such check and forward
unconditionally; all four forward the request mapping
`{action, <named params>, managers}` (with `managers` defaulting to
`"any"`). -/
theorem baseClient_name_gate (send : Value → Result)
    (atts : List (String × Value)) (managers : Value) :
    (atts.any (fun p => p.1 == "name") = false →
        addGroup send atts managers
          = ⟨[], .error "group_atts must contain a key 'name'"⟩
      ∧ addUser send atts managers
          = ⟨[], .error "group_atts must contain a key 'name'"⟩)
    ∧ (atts.any (fun p => p.1 == "name") = true →
        addGroup send atts managers
          = ⟨[Value.vmap [("action", .vstr "add_group"),
                ("group_atts", .vmap atts), ("managers", managers)]],
             .ok (send (Value.vmap [("action", .vstr "add_group"),
                ("group_atts", .vmap atts), ("managers", managers)]))⟩
      ∧ addUser send atts managers
          = ⟨[Value.vmap [("action", .vstr "add_user"),
                ("user_atts", .vmap atts), ("managers", managers)]],
             .ok (send (Value.vmap [("action", .vstr "add_user"),
                ("user_atts", .vmap atts), ("managers", managers)]))⟩)
    ∧ updateGroup send atts managers
        = ⟨[Value.vmap [("action", .vstr "update_group"),
              ("group_atts", .vmap atts), ("managers", managers)]],
           .ok (send (Value.vmap [("action", .vstr "update_group"),
              ("group_atts", .vmap atts), ("managers", managers)]))⟩
    ∧ updateUser send atts managers
        = ⟨[Value.vmap [("action", .vstr "update_user"),
              ("user_atts", .vmap atts), ("managers", managers)]],
           .ok (send (Value.vmap [("action", .vstr "update_user"),
              ("user_atts", .vmap atts), ("managers", managers)]))⟩ := by
  refine ⟨fun h => ⟨?_, ?_⟩, fun h => ⟨?_, ?_⟩, rfl, rfl⟩
  · simp [addGroup, h]
  · simp [addUser, h]
  · simp [addGroup, h]
  · simp [addUser, h]

/-- Counterexample to C8 as stated: `update_group` called with a
`group_atts` mapping lacking the key `name` does not fail — the request is
sent to the transport. -/
theorem updateGroup_sends_without_name :
    (updateGroup (fun _ => ⟨0, .vnull⟩) []).sent
        = [Value.vmap [("action", .vstr "update_group"),
            ("group_atts", .vmap []), ("managers", .vstr "any")]]
    ∧ (updateGroup (fun _ => ⟨0, .vnull⟩) []).outcome = .ok ⟨0, .vnull⟩ :=
  ⟨rfl, rfl⟩

/-- Witness for C8: `add_group` refuses an attribute mapping without `name`,
sends one with it, and `update_user` sends even without `name`. -/
theorem baseClient_name_gate_witness :
    addGroup (fun _ => ⟨0, .vnull⟩) [] (.vstr "any")
        = ⟨[], .error "group_atts must contain a key 'name'"⟩
    ∧ addGroup (fun _ => ⟨0, .vnull⟩) [("name", .vstr "g")] (.vstr "any")
        = ⟨[Value.vmap [("action", .vstr "add_group"),
              ("group_atts", .vmap [("name", .vstr "g")]), ("managers", .vstr "any")]],
           .ok ⟨0, .vnull⟩⟩
    ∧ updateUser (fun _ => ⟨0, .vnull⟩) [] (.vstr "any")
        = ⟨[Value.vmap [("action", .vstr "update_user"),
              ("user_atts", .vmap []), ("managers", .vstr "any")]],
           .ok ⟨0, .vnull⟩⟩ :=
  ⟨((baseClient_name_gate (fun _ => ⟨0, .vnull⟩) [] (.vstr "any")).1 (by decide)).1,
   ((baseClient_name_gate (fun _ => ⟨0, .vnull⟩) [("name", .vstr "g")]
      (.vstr "any")).2.1 (by decide)).1,
   (baseClient_name_gate (fun _ => ⟨0, .vnull⟩) [] (.vstr "any")).2.2.2⟩

/-! Lemmas about the Producer's delivery loop. -/

theorem producerLoop_done (publishOk closed : Nat → Bool)
    (fuel attempts : Nat) (tr : List ProdEv) :
    producerLoop publishOk closed fuel false attempts tr = (false, tr) := by
  cases fuel with
  | zero => rfl
  | succ n => simp [producerLoop]

theorem producerLoop_all_fail (publishOk closed : Nat → Bool) :
    ∀ (fuel attempts : Nat) (tr : List ProdEv),
      fuel + attempts = 11 → 1 ≤ attempts →
      (∀ a, attempts ≤ a → a < 10 → publishOk a = false) →
      producerLoop publishOk closed fuel true attempts tr
        = (true, tr ++ (List.range' attempts (10 - attempts)).flatMap
            (prodFailEvs closed)) := by
  intro fuel
  induction fuel with
  | zero =>
      intro attempts tr hsum _ _
      have h11 : attempts = 11 := by omega
      subst h11
      simp [producerLoop]
  | succ n ih =>
      intro attempts tr hsum h1 hfail
      by_cases hlt : attempts < 10
      · have hguard : (true && decide (attempts < 10)) = true := by
          simp [hlt]
        have hpub := hfail attempts (le_refl attempts) hlt
        simp only [producerLoop, hguard, if_true, hpub, Bool.true_and,
          decide_eq_true_eq, if_pos hlt]
        rw [ih (attempts + 1) _ (by omega) (by omega)
          (fun a ha ha10 => hfail a (by omega) ha10)]
        have hr : 10 - attempts = (10 - (attempts + 1)) + 1 := by omega
        rw [hr, List.range'_succ]
        simp [prodFailEvs]
      · have h10 : attempts = 10 := by omega
        subst h10
        simp [producerLoop]

theorem producerLoop_first_success (publishOk closed : Nat → Bool)
    (a : Nat) (ha : a < 10) (hOk : publishOk a = true) :
    ∀ (fuel attempts : Nat) (tr : List ProdEv),
      fuel + attempts = 11 → attempts ≤ a →
      (∀ b, attempts ≤ b → b < a → publishOk b = false) →
      producerLoop publishOk closed fuel true attempts tr
        = (false, tr ++ (List.range' attempts (a - attempts)).flatMap
            (prodFailEvs closed) ++ [ProdEv.pub a]) := by
  intro fuel
  induction fuel with
  | zero =>
      intro attempts tr hsum hle _
      omega
  | succ n ih =>
      intro attempts tr hsum hle hfail
      have hlt : attempts < 10 := by omega
      by_cases heq : attempts = a
      · subst heq
        simp only [producerLoop, Bool.true_and, decide_eq_true_eq,
          if_pos hlt, hOk, if_true]
        rw [producerLoop_done]
        simp
      · have hab : attempts < a := by omega
        have hpub := hfail attempts (le_refl attempts) hab
        simp only [producerLoop, Bool.true_and, decide_eq_true_eq,
          if_pos hlt, hpub, Bool.false_eq_true, if_false]
        rw [ih (attempts + 1) _ (by omega) (by omega)
          (fun b hb hba => hfail b (by omega) hba)]
        have hr : a - attempts = (a - (attempts + 1)) + 1 := by omega
        rw [hr, List.range'_succ]
        simp [prodFailEvs]

/-- **C7** (corrected). For a value whose serialization succeeds,
`Producer.send` attempts the publish at most **9** times (`attempts = 1`,
loop guard `attempts < 10`), sleeping `(attempt - 1) * 5` seconds after
each failed attempt and reconnecting when the connection is closed; when
attempts 1..9 all fail it returns status 470 with a human-readable message;
when some attempt `a ≤ 9` is the first to succeed it returns `{0, null}`;
serialization failure returns 453 with no publish attempt. The 10th attempt
promised by the claim never happens (see the counterexample). -/
theorem producerSend_spec (publishOk closed : Nat → Bool) :
    ((∀ b, 1 ≤ b → b < 10 → publishOk b = false) →
       producerSend true publishOk closed
         = (⟨470, .vstr "Message could not be delivered"⟩,
            (List.range' 1 9).flatMap (prodFailEvs closed)))
    ∧ (∀ a, 1 ≤ a → a < 10 → publishOk a = true →
        (∀ b, 1 ≤ b → b < a → publishOk b = false) →
        producerSend true publishOk closed
          = (⟨0, .vnull⟩,
             (List.range' 1 (a - 1)).flatMap (prodFailEvs closed)
               ++ [ProdEv.pub a]))
    ∧ producerSend false publishOk closed
        = (⟨453, .vstr "Could not serialize the message as YAML"⟩, []) := by
  refine ⟨fun h => ?_, fun a h1 h10 hOk hFirst => ?_, rfl⟩
  · unfold producerSend
    rw [producerLoop_all_fail publishOk closed 10 1 [] rfl (le_refl 1) h]
    simp
  · unfold producerSend
    rw [producerLoop_first_success publishOk closed a h10 hOk 10 1 [] rfl h1 hFirst]
    simp

/-- Counterexample to C7 as stated: with a publish that first succeeds on
the 10th attempt, `Producer.send` returns 470 after exactly 9 publish
attempts — the promised 10th attempt is never made. -/
theorem producerSend_only_nine_attempts :
    (producerSend true (fun a => a == 10) (fun _ => false)).1.status = 470
    ∧ pubsOf (producerSend true (fun a => a == 10) (fun _ => false)).2
        = [1, 2, 3, 4, 5, 6, 7, 8, 9]
    ∧ (fun a => a == 10) 10 = true := by
  refine ⟨rfl, by decide, rfl⟩

/-- Witness for C7: a publish first succeeding on attempt 3 yields
`{0, null}` after the failures of attempts 1 and 2. -/
theorem producerSend_spec_witness :
    producerSend true (fun a => a == 3) (fun _ => false)
      = (⟨0, .vnull⟩, (List.range' 1 (3 - 1)).flatMap
          (prodFailEvs (fun _ => false)) ++ [ProdEv.pub 3]) :=
  (producerSend_spec (fun a => a == 3) (fun _ => false)).2.1 3
    (by decide) (by decide) (by decide)
    (fun b _ hb3 => beq_eq_false_iff_ne.mpr (by omega))

/-! Lemmas about the RPC client's reply-wait loop. -/

theorem processSlice_nomatch (corrId : String) :
    ∀ (events : List (String × ParsedBody)) (resp : Option ParsedBody),
      sliceHasMatch corrId events = false →
      processSlice corrId events resp = resp := by
  intro events
  induction events with
  | nil => intro resp _; rfl
  | cons ev rest ih =>
      intro resp h
      rw [sliceHasMatch, List.any_cons, Bool.or_eq_false_iff] at h
      obtain ⟨h1, h2⟩ := h
      show processSlice corrId rest (onResp corrId resp ev) = resp
      rw [onResp, if_neg (by simp [h1])]
      exact ih resp h2

theorem processSlice_isSome (corrId : String) :
    ∀ (events : List (String × ParsedBody)) (resp : Option ParsedBody),
      (sliceHasMatch corrId events = true ∨ resp.isSome = true) →
      (processSlice corrId events resp).isSome = true := by
  intro events
  induction events with
  | nil =>
      intro resp h
      rcases h with h | h
      · simp [sliceHasMatch] at h
      · exact h
  | cons ev rest ih =>
      intro resp h
      show (processSlice corrId rest (onResp corrId resp ev)).isSome = true
      cases hev : corrId == ev.1 with
      | true =>
          apply ih
          right
          rw [onResp, if_pos hev]
          rfl
      | false =>
          rw [onResp, if_neg (by simp [hev])]
          apply ih
          rcases h with h | h
          · rw [sliceHasMatch, List.any_cons, hev, Bool.false_or] at h
            exact Or.inl h
          · exact Or.inr h

theorem waitLoop_some (corrId : String)
    (slices : Nat → List (String × ParsedBody)) (fuel attempts : Nat)
    (b : ParsedBody) :
    waitLoop corrId slices fuel (some b) attempts = (some b, attempts) := by
  cases fuel <;> simp [waitLoop]

theorem waitLoop_stop36 (corrId : String)
    (slices : Nat → List (String × ParsedBody)) (fuel : Nat)
    (resp : Option ParsedBody) :
    waitLoop corrId slices fuel resp 36 = (resp, 36) := by
  cases fuel <;> cases resp <;> simp [waitLoop]

theorem waitLoop_att36 (corrId : String)
    (slices : Nat → List (String × ParsedBody)) :
    ∀ (fuel attempts : Nat),
      fuel + attempts = 37 → 1 ≤ attempts → attempts ≤ 35 →
      (∀ t, attempts ≤ t → t ≤ 34 → sliceHasMatch corrId (slices t) = false) →
      (waitLoop corrId slices fuel none attempts).2 = 36 := by
  intro fuel
  induction fuel with
  | zero => intro attempts hsum _ h35 _; omega
  | succ n ih =>
      intro attempts hsum h1 h35 hnm
      have hlt : attempts < 36 := by omega
      rw [waitLoop, if_pos (by simp [hlt])]
      by_cases h34 : attempts ≤ 34
      · rw [processSlice_nomatch corrId _ none
          (hnm attempts (le_refl attempts) h34)]
        exact ih (attempts + 1) (by omega) (by omega) (by omega)
          (fun t ht h34' => hnm t (by omega) h34')
      · have h35' : attempts = 35 := by omega
        subst h35'
        cases hr : processSlice corrId (slices 35) none with
        | none => rw [waitLoop_stop36]
        | some b => rw [waitLoop_some]

theorem waitLoop_first_match (corrId : String)
    (slices : Nat → List (String × ParsedBody)) (T : Nat) (hT : T < 36)
    (hmatch : sliceHasMatch corrId (slices T) = true) :
    ∀ (fuel attempts : Nat),
      fuel + attempts = 37 → attempts ≤ T →
      (∀ t, attempts ≤ t → t < T → sliceHasMatch corrId (slices t) = false) →
      waitLoop corrId slices fuel none attempts
        = (processSlice corrId (slices T) none, T + 1) := by
  intro fuel
  induction fuel with
  | zero => intro attempts hsum hle _; omega
  | succ n ih =>
      intro attempts hsum hle hbefore
      have hlt : attempts < 36 := by omega
      rw [waitLoop, if_pos (by simp [hlt])]
      by_cases heq : attempts = T
      · subst heq
        have hsome := processSlice_isSome corrId (slices attempts) none
          (Or.inl hmatch)
        obtain ⟨b, hb⟩ := Option.isSome_iff_exists.mp hsome
        rw [hb, waitLoop_some]
      · have hab : attempts < T := by omega
        rw [processSlice_nomatch corrId _ none
          (hbefore attempts (le_refl attempts) hab)]
        exact ih (attempts + 1) (by omega) (by omega)
          (fun t ht htT => hbefore t (by omega) htT)

/-- **C5** (corrected). After a successful publish, `RPCClient.send` polls
in 5-second slices with `attempts = 1` and loop guard
`response is None and attempts < 36`, i.e. at most **35** slices
(about 175 s); the timeout branch (returning status 471) is taken exactly
when no reply bearing the pending correlation id arrives during the first
**34** slices; when the first matching reply arrives in slice `T ≤ 34` the
stored reply body is decoded and returned. In particular a matching reply
arriving during the 35th slice is received but still answered with the 471
timeout result (see the counterexample). -/
theorem rpcClient_wait_spec (corrId : String)
    (slices : Nat → List (String × ParsedBody)) :
    (rpcTimedOut corrId slices = true ↔
       ∀ t, 1 ≤ t → t ≤ 34 → sliceHasMatch corrId (slices t) = false)
    ∧ (rpcTimedOut corrId slices = true →
        sendAfterPublish corrId slices
          = .ok ⟨471, .vstr "Operation timed out waiting for a response"⟩)
    ∧ (∀ T, 1 ≤ T → T ≤ 34 → sliceHasMatch corrId (slices T) = true →
        (∀ t, 1 ≤ t → t < T → sliceHasMatch corrId (slices t) = false) →
        sendAfterPublish corrId slices
          = decodeStored (processSlice corrId (slices T) none)) := by
  refine ⟨⟨fun htm => ?_, fun hnm => ?_⟩, fun htm => ?_, fun T hT1 hT34 hm hb => ?_⟩
  · by_contra hex
    push_neg at hex
    obtain ⟨t0, ht01, ht034, ht0m⟩ := hex
    have ht0m' : sliceHasMatch corrId (slices t0) = true := by
      cases hmm : sliceHasMatch corrId (slices t0) with
      | false => exact absurd hmm ht0m
      | true => rfl
    have hexP : ∃ t, 1 ≤ t ∧ t ≤ 34 ∧ sliceHasMatch corrId (slices t) = true :=
      ⟨t0, ht01, ht034, ht0m'⟩
    classical
    obtain ⟨hT1, hT34, hTm⟩ := Nat.find_spec hexP
    have hbef : ∀ t, 1 ≤ t → t < Nat.find hexP →
        sliceHasMatch corrId (slices t) = false := by
      intro t h1t htT
      cases hmm : sliceHasMatch corrId (slices t) with
      | false => rfl
      | true => exact absurd ⟨h1t, by omega, hmm⟩ (Nat.find_min hexP htT)
    have hw := waitLoop_first_match corrId slices (Nat.find hexP) (by omega)
      hTm 36 1 rfl hT1 hbef
    rw [rpcTimedOut, hw] at htm
    simp at htm
    omega
  · have h36 := waitLoop_att36 corrId slices 36 1 rfl (le_refl 1) (by omega) hnm
    rw [rpcTimedOut, h36]
    rfl
  · rw [rpcTimedOut] at htm
    cases hw : waitLoop corrId slices 36 none 1 with
    | mk resp att =>
        rw [hw] at htm
        simp at htm
        rw [sendAfterPublish, hw]
        simp [htm]
  · have hw := waitLoop_first_match corrId slices T (by omega) hm 36 1 rfl hT1 hb
    rw [sendAfterPublish, hw]
    have hne : ((T + 1 == 36)) = false := beq_eq_false_iff_ne.mpr (by omega)
    simp [hne]

/-- Counterexample to C5 as stated: a matching, well-formed reply received
during the 35th poll slice — well within the claimed 36-iteration budget —
is discarded and `send` returns the 471 timeout result instead of decoding
it. -/
theorem rpcClient_late_reply_dropped :
    sliceHasMatch "cid" (slices35 35) = true
    ∧ sendAfterPublish "cid" slices35
        = .ok ⟨471, .vstr "Operation timed out waiting for a response"⟩ :=
  ⟨rfl, rfl⟩

/-- Witness for C5: a matching reply in slice 2 is decoded into
`Result(7, "r")` and returned. -/
theorem rpcClient_wait_spec_witness :
    sendAfterPublish "cid" slices2 = .ok ⟨7, .vstr "r"⟩ :=
  (rpcClient_wait_spec "cid" slices2).2.2 2 (by decide) (by decide) rfl
    (fun t h1 h2 => by
      have ht : t = 1 := by omega
      subst ht
      rfl)

/-! Lemmas about the dispatcher `call_method`. -/

theorem gatherArgs_vmap (entries : List (String × Value)) :
    ∀ params : List String,
      gatherArgs (.vmap entries) params
        = .ok (if params.all (fun p => (lookupStr entries p).isSome)
               then some (params.filterMap (fun p => lookupStr entries p))
               else none) := by
  intro params
  induction params with
  | nil => rfl
  | cons p rest ih =>
      cases hlk : lookupStr entries p with
      | none =>
          have hmem : entries.any (fun q => q.1 == p) = false := by
            rw [← lookupStr_isSome_eq_any, hlk]
            rfl
          simp [gatherArgs, pyContains, hmem, Bind.bind, Except.bind,
            List.all_cons, hlk]
      | some v =>
          have hmem : entries.any (fun q => q.1 == p) = true := by
            rw [← lookupStr_isSome_eq_any, hlk]
            rfl
          simp only [gatherArgs, pyContains, hmem, Bind.bind, Except.bind,
            pySubscript, hlk, ih, List.all_cons, List.filterMap_cons,
            Option.isSome_some, Bool.true_and, if_true]
          cases hall : rest.all (fun q => (lookupStr entries q).isSome) <;>
            simp [hall, hlk]

/-- **C4** (confirmed). For every handler object and decoded request
mapping (whose `action` value, when present, is a string, as §3's request
envelope prescribes), the dispatcher returns status 450 when the key
`action` is absent; otherwise 451 when the handler has no method of that
name; otherwise 452 when some declared parameter of the method is missing
from the request (extra keys ignored); otherwise it calls the method with
the arguments in declared parameter order, converts a raised error to 455,
and otherwise passes the method's `Result` through; every error case
carries a null response. -/
theorem callMethod_dispatch (h : Handler) (entries : List (String × Value)) :
    (lookupStr entries "action" = none →
       callMethod h (.vmap entries) = .ok ⟨450, .vnull⟩)
    ∧ (∀ aname, lookupStr entries "action" = some (.vstr aname) →
        (lookupStr h.methods aname = none →
           callMethod h (.vmap entries) = .ok ⟨451, .vnull⟩)
        ∧ (∀ meth, lookupStr h.methods aname = some meth →
            ((∃ p ∈ meth.params, lookupStr entries p = none) →
               callMethod h (.vmap entries) = .ok ⟨452, .vnull⟩)
            ∧ ((∀ p ∈ meth.params, (lookupStr entries p).isSome) →
               callMethod h (.vmap entries)
                 = .ok (match meth.impl (meth.params.filterMap
                       (fun p => lookupStr entries p)) with
                     | .ok r => r
                     | .error _ => ⟨455, .vnull⟩)))) := by
  refine ⟨fun hna => ?_, fun aname ha => ⟨fun hm => ?_, fun meth hm => ⟨fun hex => ?_, fun hall => ?_⟩⟩⟩
  · have hmem : entries.any (fun q => q.1 == "action") = false := by
      rw [← lookupStr_isSome_eq_any, hna]
      rfl
    simp [callMethod, pyContains, hmem, Bind.bind, Except.bind]
  · have hmem : entries.any (fun q => q.1 == "action") = true := by
      rw [← lookupStr_isSome_eq_any, ha]
      rfl
    simp [callMethod, pyContains, hmem, Bind.bind, Except.bind, pySubscript,
      ha, hm]
  · have hmem : entries.any (fun q => q.1 == "action") = true := by
      rw [← lookupStr_isSome_eq_any, ha]
      rfl
    have hfail : meth.params.all (fun p => (lookupStr entries p).isSome) = false := by
      obtain ⟨p, hp, hpn⟩ := hex
      rcases hb : meth.params.all (fun p => (lookupStr entries p).isSome) with _ | _
      · rfl
      · have := List.all_eq_true.mp hb p hp
        rw [hpn] at this
        simp at this
    simp [callMethod, pyContains, hmem, Bind.bind, Except.bind, pySubscript,
      ha, hm, gatherArgs_vmap, hfail]
  · have hmem : entries.any (fun q => q.1 == "action") = true := by
      rw [← lookupStr_isSome_eq_any, ha]
      rfl
    have hok : meth.params.all (fun p => (lookupStr entries p).isSome) = true :=
      List.all_eq_true.mpr hall
    simp only [callMethod, pyContains, hmem, Bind.bind, Except.bind,
      pySubscript, ha, hm, gatherArgs_vmap, hok, if_true]
    cases meth.impl (meth.params.filterMap (fun p => lookupStr entries p)) <;> rfl

/-- Witness for C4: the handler's `echo(message)` called without the
`message` key yields status 452 with a null response (spec §8 scenario 5). -/
theorem callMethod_dispatch_witness :
    callMethod hEcho (.vmap [("action", .vstr "echo")]) = .ok ⟨452, .vnull⟩ :=
  (((callMethod_dispatch hEcho [("action", .vstr "echo")]).2 "echo" rfl).2
      methEcho rfl).1
    ⟨"message", by simp [methEcho], rfl⟩

/-! Claim theorems for the RPC server callback. -/

/-- **C2** (corrected). Whenever the RPC server's `consume_callback`
completes without raising, its broker operations are exactly one
`basic_publish` to the message's `reply_to` carrying the message's
`correlation_id`, followed by the `basic_ack` of the originating message —
and a decode failure or the `CLOSE_IMMEDIATELY` sentinel always completes
this way, with the 450 envelope and the `{0, "SHUTDOWN_INIT"}` result
respectively. A body decoding to a non-container scalar raises an uncaught
`TypeError` inside the dispatcher before any publish (see the
counterexample). -/
theorem consumeCallback_one_reply (h : Handler) (props : Props) :
    (∀ body out, consumeCallback h props body = .ok out →
       ∃ payload, out.1 = [.publish props.replyTo props.corrId payload, .ack])
    ∧ consumeCallback h props .parseFail
        = .ok ([.publish props.replyTo props.corrId
                 (Result.toTransportFormat ⟨450, .vnull⟩), .ack], 450, false)
    ∧ consumeCallback h props (.ok (.vstr "CLOSE_IMMEDIATELY"))
        = .ok ([.publish props.replyTo props.corrId
                 (Result.toTransportFormat ⟨0, .vstr "SHUTDOWN_INIT"⟩), .ack],
               0, true) := by
  refine ⟨?_, rfl, rfl⟩
  intro body out hout
  cases body with
  | parseFail =>
      have : consumeCallback h props .parseFail
          = .ok ([.publish props.replyTo props.corrId
                   (Result.toTransportFormat ⟨450, .vnull⟩), .ack], 450, false) := rfl
      rw [this] at hout
      cases hout
      exact ⟨_, rfl⟩
  | ok v =>
      cases hclose : isCloseMsg (some v) with
      | true =>
          simp only [consumeCallback, hclose, if_true] at hout
          cases hout
          exact ⟨_, rfl⟩
      | false =>
          cases hcm : callMethod h v with
          | error e =>
              simp [consumeCallback, hclose, hcm, Bind.bind, Except.bind] at hout
          | ok r =>
              simp only [consumeCallback, hclose, Bool.false_eq_true, if_false,
                Bind.bind, Except.bind, hcm] at hout
              cases hout
              exact ⟨_, rfl⟩

/-- Counterexample to C2 as stated: the message body `5` decodes
successfully to an integer, is not the sentinel, and makes the callback
raise (`'action' not in message` on a non-container) — no reply is
published and the message is never acknowledged. -/
theorem consumeCallback_int_body_raises :
    consumeCallback ⟨[]⟩ ⟨"rq", "c1"⟩ (.ok (.vint 5)) = .error () := rfl

/-- Witness for C2: the completion branch of the theorem applied to a
decode failure at a concrete handler and properties. -/
theorem consumeCallback_one_reply_witness :
    ∃ payload,
      (([BrokerOp.publish "rq" "c1" (Result.toTransportFormat ⟨450, .vnull⟩),
         BrokerOp.ack], (450 : Int), false) : List BrokerOp × Int × Bool).1
        = [BrokerOp.publish "rq" "c1" payload, BrokerOp.ack] :=
  (consumeCallback_one_reply ⟨[]⟩ ⟨"rq", "c1"⟩).1 .parseFail _ rfl

end Metaroot
